import Mathlib

/-!
Shallow embedding of `src/semantle_solver.py` (class `SemantleSolver`).

Conventions of the embedding:
* Words are lists of Unicode characters (`List Char`), mirroring Python
  strings at the codepoint level.
* Python floats that carry similarity values and sleep durations are
  modelled as rationals (`ℚ`); all values the claims touch (5, 1.5, -1, ...)
  are exactly representable, and only order/equality of similarities is used.
* The solver object's mutable fields become a `SolverState` record, and each
  method becomes a function threading that record.
* Python `set` (`tried_words`) is modelled as a duplicate-free list with
  `setAdd`; Python `dict` caches become association lists; the
  `*_exhausted` lists are Python lists and stay lists.
* External effects are parameters: the HTTP oracle is a list of
  `ApiResponse` values consumed in order, the Wikipedia/Milog fetches are
  functions from a word to the textual material the parser would see, the
  Unicode `Mn` category table and `str.lower` are opaque character tables,
  and `random.choice` is a choice function applied to the same candidate
  list the code builds.
-/

namespace SemantleSpec

/-- A word: a Python string at codepoint level. -/
abbrev Word := List Char

/-- Python `set.add` on our list model of `tried_words`: no-op when the
element is present, append otherwise (so `length` models `len`). -/
def setAdd (l : List Word) (w : Word) : List Word :=
  if w ∈ l then l else l ++ [w]

/-- Association-list lookup for the cache dictionaries. -/
def lookupAssoc : List (Word × List Word) → Word → Option (List Word)
  | [], _ => none
  | (k, v) :: rest, w => if k = w then some v else lookupAssoc rest w

/-- Model of `GuessResult` TypedDict from the source. -/
structure GuessResult where
  word : Word
  similarity : ℚ
  distance : ℤ
  origin : Word
  origin_source : String
  guess_number : ℕ
deriving DecidableEq

/-- Model of `WordToTry` TypedDict from the source. -/
structure WordToTry where
  word : Word
  origin : Word
  origin_source : String
deriving DecidableEq

/-- The mutable fields of the `SemantleSolver` object that the claims
touch (`__init__`). -/
structure SolverState where
  language : String
  guess_history : List GuessResult
  tried_words : List Word
  wikipedia_cache : List (Word × List Word)
  wikipedia_exhausted : List Word
  milog_cache : List (Word × List Word)
  milog_exhausted : List Word
  seed_word : Word
  top_words_to_find_relations : ℕ
deriving DecidableEq

/-- Classified outcome of one `requests.get` against the scoring API, as
`submit_guess` distinguishes them:
* `networkError`: `requests.get` itself raises (`RequestException`),
  caught at the end of the method before `tried_words.add` runs;
* `rateLimited`: status 429;
* `badRequest wordNotFound`: status 400/404, flag says whether the body
  contains "Word not found";
* `httpError`: another error status, `raise_for_status` raises;
* `malformed`: the body cannot be decoded (`response.json()` raises a
  `RequestException` subclass);
* `score s d`: a well-formed scored answer. -/
inductive ApiResponse where
  | networkError
  | rateLimited
  | badRequest (wordNotFound : Bool)
  | httpError
  | malformed
  | score (similarity : ℚ) (distance : ℤ)
deriving DecidableEq

/-- Model of `submit_guess`.  Besides the returned `GuessResult | None` and the
updated state, the model also returns the total time slept (the
`time.sleep(sleep_time)` calls in the 429 branch) and the number of HTTP
requests issued, so that backoff and "never contacted again" claims are
observable.  The oracle is the list `responses`, consumed one element per
HTTP request; an exhausted list ends the call with no further effect
(claims only use long enough lists). -/
def submit_guess (st : SolverState) (wt : WordToTry) :
    List ApiResponse → ℚ → Option GuessResult × SolverState × ℚ × ℕ
  | responses, sleep_time =>
    if wt.word ∈ st.tried_words then (none, st, 0, 0)
    else
      match responses with
      | [] => (none, st, 0, 0)
      | ApiResponse.networkError :: _ => (none, st, 0, 1)
      | ApiResponse.rateLimited :: rest =>
          let out := submit_guess st wt rest (sleep_time * (3/2))
          (out.1, out.2.1, sleep_time + out.2.2.1, out.2.2.2 + 1)
      | ApiResponse.badRequest wordNotFound :: _ =>
          let tried : List Word := setAdd st.tried_words wt.word
          if wordNotFound then
            let result : GuessResult :=
              { word := wt.word, similarity := -1, distance := -1,
                origin := wt.origin, origin_source := wt.origin_source,
                guess_number := tried.length }
            (some result,
             { st with tried_words := tried,
                       guess_history := st.guess_history ++ [result] }, 0, 1)
          else
            (none, { st with tried_words := tried }, 0, 1)
      | ApiResponse.httpError :: _ =>
          (none, { st with tried_words := setAdd st.tried_words wt.word }, 0, 1)
      | ApiResponse.malformed :: _ =>
          (none, { st with tried_words := setAdd st.tried_words wt.word }, 0, 1)
      | ApiResponse.score s d :: _ =>
          let tried : List Word := setAdd st.tried_words wt.word
          let result : GuessResult :=
            { word := wt.word, similarity := s, distance := d,
              origin := wt.origin, origin_source := wt.origin_source,
              guess_number := tried.length }
          (some result,
           { st with tried_words := tried,
                     guess_history := st.guess_history ++ [result] }, 0, 1)

/-- One insertion step of a stable descending sort on `similarity`.
An incoming element `g` (earlier in the original list than everything in
`l`) moves past exactly the elements with strictly larger similarity, so
the result of `sortBySimilarityDesc` coincides with Python's stable
`sorted(..., key=sim, reverse=True)`. -/
def insertDesc (g : GuessResult) : List GuessResult → List GuessResult
  | [] => [g]
  | h :: t => if g.similarity < h.similarity then h :: insertDesc g t else g :: h :: t

/-- Stable descending sort by `similarity`; extensionally equal to
`sorted(self.guess_history, key=lambda x: x['similarity'], reverse=True)`
(a stable sort is unique). -/
def sortBySimilarityDesc : List GuessResult → List GuessResult
  | [] => []
  | g :: t => insertDesc g (sortBySimilarityDesc t)

/-- Model of `get_top_matches`. -/
def get_top_matches (st : SolverState) (n : ℕ) : List GuessResult :=
  (sortBySimilarityDesc st.guess_history).take n

/-! ### Lexical expansion pipeline -/

/-- Model of `remove_niqqud`: drop the characters the Unicode database classifies
as `Mn` (nonspacing combining marks).  The Unicode category table is
external data and is passed in as the predicate `Mn`. -/
def remove_niqqud (Mn : Char → Bool) (text : Word) : Word :=
  text.filter (fun ch => ! Mn ch)

/-- Model of `is_hebrew`: a nonempty string all of whose characters lie in the
Unicode Hebrew block `U+0590 .. U+05FF`. -/
def is_hebrew (text : Word) : Bool :=
  ! text.isEmpty && text.all (fun c => decide (0x0590 ≤ c.toNat ∧ c.toNat ≤ 0x05FF))

/-- The punctuation characters of `SPECIAL_CHARS` (a Hebrew maqaf
follows the ASCII ones in the source). -/
def SPECIAL_CHARS : List Char :=
  ['(', ')', '#', '|', ':', '[', ']', '<', '>', '.', ',', ';', '!', '?',
   '+', '-', '=', '_', '"', Char.ofNat 0x7B, Char.ofNat 0x7D,
   Char.ofNat 0x27, Char.ofNat 0x05BE]

/-- Model of `str.translate(TRANS_TABLE)`: map every special character to a space. -/
def translateSpecial (text : Word) : Word :=
  text.map (fun c => if c ∈ SPECIAL_CHARS then ' ' else c)

/-- Model of `str.strip()` (whitespace trim at both ends). -/
def stripWs (text : Word) : Word :=
  ((text.dropWhile Char.isWhitespace).reverse.dropWhile Char.isWhitespace).reverse

/-- The scanner behind `str.split()`: `cur` is the current token,
accumulated in reverse.  Emits the maximal runs of non-whitespace. -/
def splitWsAux : List Char → Word → List Word
  | [], cur => if cur = [] then [] else [cur.reverse]
  | c :: cs, cur =>
    if c.isWhitespace then
      if cur = [] then splitWsAux cs [] else cur.reverse :: splitWsAux cs []
    else splitWsAux cs (c :: cur)

/-- Model of `str.split()` with no separator: maximal runs of non-whitespace. -/
def splitWs (text : Word) : List Word := splitWsAux text []

/-- The body of the `for word in phrase.split():` loop in
`extract_words_from_wikitext_phrase`, including the early `break` once
`related_words` reaches `max_words`.  `lower` is the external
`str.lower` character table used on the English path. -/
def extractLoop (Mn : Char → Bool) (lower : Char → Char) (language : String)
    (tried : List Word) (base_word : Word) (max_words : ℕ) :
    List Word → List Word → List Word
  | related, [] => related
  | related, tok :: toks =>
    let w := remove_niqqud Mn tok
    let w := if language = "english" then w.map lower else w
    if language = "hebrew" ∧ ¬ is_hebrew w then
      extractLoop Mn lower language tried base_word max_words related toks
    else if w.length < 2 ∨ w = base_word ∨ w ∈ tried ∨ w ∈ related then
      extractLoop Mn lower language tried base_word max_words related toks
    else
      let related := related ++ [w]
      if max_words ≤ related.length then related
      else extractLoop Mn lower language tried base_word max_words related toks

/-- Model of `extract_words_from_wikitext_phrase`: the phrase is cleansed of
special characters, split on whitespace, and each token is filtered and
appended to the accumulating `related_words` list. -/
def extract_words_from_wikitext_phrase (Mn : Char → Bool) (lower : Char → Char)
    (language : String) (tried : List Word) (base_word : Word) (phrase : Word)
    (related : List Word) (max_words : ℕ) : List Word :=
  extractLoop Mn lower language tried base_word max_words related
    (splitWs (stripWs (translateSpecial phrase)))

/-- Model of `get_related_words_from_wikipedia`, with the external fetch
abstracted: `pages w` returns the pair of (a) the link payloads the
`\[\[...\]\]` regex finds in the page for `w` and (b) the Hebrew runs the
`[֐-׿]+` regex finds in the page body.  Request failure or a
missing page is the pair `([], [])`. -/
def get_related_words_from_wikipedia (Mn : Char → Bool) (lower : Char → Char)
    (pages : Word → List Word × List Word) (language : String)
    (tried : List Word) (word : Word) (max_words : ℕ) : List Word :=
  let related : List Word :=
    (pages word).1.foldl
      (fun rel link =>
        extract_words_from_wikitext_phrase Mn lower language tried word link rel max_words)
      []
  let related :=
    if language = "hebrew" ∧ related.length < max_words then
      (pages word).2.foldl
        (fun rel ph =>
          extract_words_from_wikitext_phrase Mn lower language tried word ph rel max_words)
        related
    else related
  related.take max_words

/-- Characters matched by `HEBREW_WORD_RE = [א-ת]{2,}`. -/
def isHebLetter (c : Char) : Bool :=
  decide (0x05D0 ≤ c.toNat ∧ c.toNat ≤ 0x05EA)

/-- The scanner behind `HEBREW_WORD_RE.findall`: `cur` is the current
run of Hebrew letters, accumulated in reverse; runs shorter than two
characters are not matches. -/
def hebrewFindallAux : List Char → Word → List Word
  | [], cur => if 2 ≤ cur.length then [cur.reverse] else []
  | c :: cs, cur =>
    if isHebLetter c then hebrewFindallAux cs (c :: cur)
    else (if 2 ≤ cur.length then [cur.reverse] else []) ++ hebrewFindallAux cs []

/-- Model of `HEBREW_WORD_RE.findall`: the maximal runs of Hebrew letters of
length at least two, leftmost first. -/
def hebrewWordFindall (text : Word) : List Word := hebrewFindallAux text []

/-- Model of `normalize_hebrew_token`: strip `Mn` marks, replace the maqaf by a
space, trim. -/
def normalize_hebrew_token (Mn : Char → Bool) (text : Word) : Word :=
  stripWs ((remove_niqqud Mn text).map
    (fun c => if c = Char.ofNat 0x05BE then ' ' else c))

/-- The inner `for candidate in ...findall(text):` loop of
`get_related_words_from_milog` (its `break` leaves only this loop). -/
def milogCandLoop (tried : List Word) (word : Word) (max_words : ℕ) :
    List Word → List Word → List Word
  | related, [] => related
  | related, cand :: cands =>
    if cand = word ∨ cand ∈ tried ∨ cand ∈ related then
      milogCandLoop tried word max_words related cands
    else
      let related := related ++ [cand]
      if max_words ≤ related.length then related
      else milogCandLoop tried word max_words related cands

/-- The outer `for div in soup.find_all(...)` loop of
`get_related_words_from_milog`. -/
def milogDivLoop (Mn : Char → Bool) (tried : List Word) (word : Word)
    (max_words : ℕ) : List Word → List Word → List Word
  | related, [] => related
  | related, d :: ds =>
    let related :=
      milogCandLoop tried word max_words related
        (hebrewWordFindall (normalize_hebrew_token Mn d))
    milogDivLoop Mn tried word max_words related ds

/-- Model of `get_related_words_from_milog`, with the external fetch abstracted:
`divs w` is the list of texts of the `div.sr_e` blocks of the result
page for `w` (a failed request is the empty list, matching the
`except` branch returning `[]`). -/
def get_related_words_from_milog (Mn : Char → Bool) (divs : Word → List Word)
    (tried : List Word) (word : Word) (max_words : ℕ) : List Word :=
  (milogDivLoop Mn tried word max_words [] (divs word)).take max_words

/-- Model of `get_cached_milog_related_words`.  Returns the related-word list, the
updated state, and the number of external Milog lookups performed
(`0` or `1`). -/
def get_cached_milog_related_words (Mn : Char → Bool) (divs : Word → List Word)
    (st : SolverState) (word : Word) (max_words : ℕ) :
    List Word × SolverState × ℕ :=
  if word ∈ st.milog_exhausted then ([], st, 0)
  else
    match lookupAssoc st.milog_cache word with
    | some l => (l, st, 0)
    | none =>
      let related := get_related_words_from_milog Mn divs st.tried_words word max_words
      let st1 := { st with milog_cache := st.milog_cache ++ [(word, related)] }
      let st2 :=
        if related.length = 0 then
          { st1 with milog_exhausted := st1.milog_exhausted ++ [word] }
        else st1
      (related, st2, 1)

/-- Model of `get_cached_wikipedia_related_words`, same conventions. -/
def get_cached_wikipedia_related_words (Mn : Char → Bool) (lower : Char → Char)
    (pages : Word → List Word × List Word) (st : SolverState) (word : Word)
    (max_words : ℕ) : List Word × SolverState × ℕ :=
  if word ∈ st.wikipedia_exhausted then ([], st, 0)
  else
    match lookupAssoc st.wikipedia_cache word with
    | some l => (l, st, 0)
    | none =>
      let related :=
        get_related_words_from_wikipedia Mn lower pages st.language st.tried_words
          word max_words
      let st1 := { st with wikipedia_cache := st.wikipedia_cache ++ [(word, related)] }
      let st2 :=
        if related.length = 0 then
          { st1 with wikipedia_exhausted := st1.wikipedia_exhausted ++ [word] }
        else st1
      (related, st2, 1)

/-! ### Provenance walk -/

mutual
/-- Model of `print_word_path`, step-indexed.  The Python method is recursive with
no visited set; the model returns the list of results displayed, or
`none` when `fuel` recursion steps did not suffice (a run that returns
`none` for every fuel is a non-terminating run of the source). -/
def print_word_path (history : List GuessResult) :
    ℕ → GuessResult → Option (List GuessResult)
  | 0, _ => none
  | fuel + 1, result =>
    if result.origin.length = 0 then some [result]
    else
      match printPathMatches history fuel history result.origin with
      | none => none
      | some rest => some (result :: rest)
termination_by fuel _ => (fuel, 0)

/-- The `for r in self.guess_history:` loop inside `print_word_path`:
recurse into every history entry whose word equals `origin`. -/
def printPathMatches (history : List GuessResult) :
    ℕ → List GuessResult → Word → Option (List GuessResult)
  | _, [], _ => some []
  | fuel, r :: rs, origin =>
    if r.word = origin then
      match print_word_path history fuel r, printPathMatches history fuel rs origin with
      | some a, some b => some (a ++ b)
      | _, _ => none
    else printPathMatches history fuel rs origin
termination_by fuel rs _ => (fuel, rs.length + 1)
end

/-! ### Candidate selector -/

/-- The `for top_match in top_matches:` loop of
`get_word_to_try_from_related_word`.  `pick` models `random.choice`,
applied to exactly the `available_words` list the code builds. -/
def selectorLoop (Mn : Char → Bool) (lower : Char → Char)
    (pick : List Word → Word) (pages : Word → List Word × List Word)
    (divs : Word → List Word) :
    SolverState → List GuessResult → Option WordToTry × SolverState
  | st, [] => (none, st)
  | st, top_match :: rest =>
    let word := top_match.word
    let out1 := get_cached_wikipedia_related_words Mn lower pages st word 30
    let st1 := out1.2.1
    let available := out1.1.filter (fun w => decide (w ∉ st1.tried_words))
    if available ≠ [] then
      (some { word := pick available, origin := word, origin_source := "wiki" }, st1)
    else if ¬ st1.language = "hebrew" then
      selectorLoop Mn lower pick pages divs st1 rest
    else
      let out2 := get_cached_milog_related_words Mn divs st1 word 30
      let st2 := out2.2.1
      let available2 := out2.1.filter (fun w => decide (w ∉ st2.tried_words))
      if available2 ≠ [] then
        (some { word := pick available2, origin := word, origin_source := "milog" }, st2)
      else selectorLoop Mn lower pick pages divs st2 rest

/-- Model of `get_word_to_try_from_related_word`.  Note that the source fetches
`self.get_top_matches(70)` with a literal `70`; the
`top_matches_to_search` argument is accepted but never read. -/
def get_word_to_try_from_related_word (Mn : Char → Bool) (lower : Char → Char)
    (pick : List Word → Word) (pages : Word → List Word × List Word)
    (divs : Word → List Word) (st : SolverState)
    (top_matches_to_search : ℕ) : Option WordToTry × SolverState :=
  selectorLoop Mn lower pick pages divs st (get_top_matches st 70)

/-- Model of `get_random_unused_word` (via `get_random_words_from_corpus(1)`):
the corpus is external file data, `sample` models `random.sample`
applied to the filtered `available_words` list. -/
def get_random_unused_word (corpus : List Word) (sample : List Word → Word)
    (st : SolverState) : Option Word :=
  let available := corpus.filter (fun w => decide (w ∉ st.tried_words))
  if available = [] then none else some (sample available)

/-- Model of `get_word_to_try`: the fallback ladder (related word, seed word,
widen-and-random, unlimited last-ditch pass). -/
def get_word_to_try (Mn : Char → Bool) (lower : Char → Char)
    (pick : List Word → Word) (pages : Word → List Word × List Word)
    (divs : Word → List Word) (corpus : List Word) (sample : List Word → Word)
    (st : SolverState) : Option WordToTry × SolverState :=
  match get_word_to_try_from_related_word Mn lower pick pages divs st
      st.top_words_to_find_relations with
  | (some wt, st1) => (some wt, st1)
  | (none, st1) =>
    if st1.seed_word ≠ [] ∧ st1.seed_word ∉ st1.tried_words then
      (some { word := st1.seed_word, origin := [], origin_source := "seed" }, st1)
    else
      let st2 := { st1 with
        top_words_to_find_relations := st1.top_words_to_find_relations + 1 }
      match get_random_unused_word corpus sample st2 with
      | some rw => (some { word := rw, origin := [], origin_source := "random" }, st2)
      | none => get_word_to_try_from_related_word Mn lower pick pages divs st2 1000000000

/-! ### Cache flush and the run loop's state mutations -/

/-- Model of `flush_dictionary(self.wikipedia_cache, "wiki")`: `dict.clear()` on
the Wikipedia cache. -/
def flush_wikipedia_cache (st : SolverState) : SolverState :=
  { st with wikipedia_cache := [] }

/-- Model of `flush_dictionary(self.milog_cache, "milog")`: `dict.clear()` on the
Milog cache. -/
def flush_milog_cache (st : SolverState) : SolverState :=
  { st with milog_cache := [] }

/-- The state mutations the `auto_solve` loop can perform, abstracted as
operations: provider lookups (issued by the selector), the periodic
cache flushes, and guess submissions. -/
inductive SolverOp where
  | lookupWiki (w : Word)
  | lookupMilog (w : Word)
  | flushWiki
  | flushMilog
  | submit (wt : WordToTry) (responses : List ApiResponse) (sleep : ℚ)

/-- Effect of one operation on the solver state. -/
def applyOp (Mn : Char → Bool) (lower : Char → Char)
    (pages : Word → List Word × List Word) (divs : Word → List Word)
    (st : SolverState) : SolverOp → SolverState
  | .lookupWiki w => (get_cached_wikipedia_related_words Mn lower pages st w 30).2.1
  | .lookupMilog w => (get_cached_milog_related_words Mn divs st w 30).2.1
  | .flushWiki => flush_wikipedia_cache st
  | .flushMilog => flush_milog_cache st
  | .submit wt responses sleep => (submit_guess st wt responses sleep).2.1

/-- Run a sequence of operations. -/
def runOps (Mn : Char → Bool) (lower : Char → Char)
    (pages : Word → List Word × List Word) (divs : Word → List Word) :
    SolverState → List SolverOp → SolverState
  | st, [] => st
  | st, op :: ops => runOps Mn lower pages divs (applyOp Mn lower pages divs st op) ops

/-! ### Concrete fixtures used by witnesses and counterexamples -/

/-- Unicode `Mn` table stub: no combining marks (any table would do for
the concrete runs below, which contain none). -/
def Mn0 : Char → Bool := fun _ => false

/-- Model of `str.lower` table stub (identity; the runs below are Hebrew). -/
def lower0 : Char → Char := id

/-- An external Wikipedia that knows no page. -/
def pages0 : Word → List Word × List Word := fun _ => ([], [])

/-- An external Milog with no result blocks. -/
def divs0 : Word → List Word := fun _ => []

/-- A deterministic stand-in for `random.choice`. -/
def pick0 : List Word → Word := fun l => l.headD []

/-- The freshly constructed solver (`__init__` field values relevant to
the claims, Hebrew profile). -/
def stEmpty : SolverState :=
  { language := "hebrew", guess_history := [], tried_words := [],
    wikipedia_cache := [], wikipedia_exhausted := [],
    milog_cache := [], milog_exhausted := [],
    seed_word := [], top_words_to_find_relations := 70 }

/-- A two-letter Hebrew word (אב). -/
def wordAB : Word := [Char.ofNat 0x05D0, Char.ofNat 0x05D1]

/-- Another two-letter Hebrew word (גד). -/
def wordGD : Word := [Char.ofNat 0x05D2, Char.ofNat 0x05D3]

/-- A third two-letter Hebrew word (הו). -/
def wordHV : Word := [Char.ofNat 0x05D4, Char.ofNat 0x05D5]

/-! ### C10: submitting an already-tried word is a no-op -/

/-- Helper shared by several claims: the `if word in self.tried_words:
return None` guard at the top of `submit_guess`. -/
theorem submit_guess_of_mem_tried (st : SolverState) (wt : WordToTry)
    (responses : List ApiResponse) (s : ℚ) (h : wt.word ∈ st.tried_words) :
    submit_guess st wt responses s = (none, st, 0, 0) := by
  cases responses with
  | nil => simp [submit_guess, h]
  | cons r rest => cases r <;> simp [submit_guess, h]

/-- C10: for every word already in the tried set, `submit_guess` returns
`None` at once, issues no HTTP request, and leaves the whole solver
state (ledger, tried set, both caches and exhausted sets) unchanged. -/
theorem C10_submit_tried_noop (st : SolverState) (wt : WordToTry)
    (responses : List ApiResponse) (s : ℚ) (h : wt.word ∈ st.tried_words) :
    submit_guess st wt responses s = (none, st, 0, 0) :=
  submit_guess_of_mem_tried st wt responses s h

/-- Witness for C10 at a concrete state whose tried set holds the word. -/
theorem C10_submit_tried_noop_witness :
    submit_guess { stEmpty with tried_words := [wordAB] }
        { word := wordAB, origin := [], origin_source := "seed" }
        [ApiResponse.score 10 5] 5 =
      (none, { stEmpty with tried_words := [wordAB] }, 0, 0) :=
  C10_submit_tried_noop _ _ _ _ (by decide)

/-! ### C6: top_k ranking -/

theorem mem_insertDesc {g x : GuessResult} {l : List GuessResult} :
    x ∈ insertDesc g l ↔ x = g ∨ x ∈ l := by
  induction l with
  | nil => simp [insertDesc]
  | cons h t ih =>
    by_cases hc : g.similarity < h.similarity <;>
      simp [insertDesc, hc, ih] <;> tauto

theorem pairwise_insertDesc {g : GuessResult} {l : List GuessResult}
    (hl : l.Pairwise (fun a b => b.similarity ≤ a.similarity)) :
    (insertDesc g l).Pairwise (fun a b => b.similarity ≤ a.similarity) := by
  induction l with
  | nil => simp [insertDesc]
  | cons h t ih =>
    rcases List.pairwise_cons.mp hl with ⟨hh, ht⟩
    by_cases hc : g.similarity < h.similarity
    · simp only [insertDesc, if_pos hc]
      refine List.pairwise_cons.mpr ⟨?_, ih ht⟩
      intro x hx
      rcases mem_insertDesc.mp hx with rfl | hx
      · exact le_of_lt hc
      · exact hh x hx
    · simp only [insertDesc, if_neg hc]
      refine List.pairwise_cons.mpr ⟨?_, hl⟩
      intro x hx
      rcases List.mem_cons.mp hx with rfl | hx
      · exact not_lt.mp hc
      · exact le_trans (hh x hx) (not_lt.mp hc)

theorem pairwise_sortBySimilarityDesc (l : List GuessResult) :
    (sortBySimilarityDesc l).Pairwise (fun a b => b.similarity ≤ a.similarity) := by
  induction l with
  | nil => simp [sortBySimilarityDesc]
  | cons g t ih => exact pairwise_insertDesc ih

theorem perm_insertDesc (g : GuessResult) (l : List GuessResult) :
    (insertDesc g l).Perm (g :: l) := by
  induction l with
  | nil => simp [insertDesc]
  | cons h t ih =>
    by_cases hc : g.similarity < h.similarity
    · simp only [insertDesc, if_pos hc]
      exact (ih.cons h).trans (List.Perm.swap g h t)
    · simp [insertDesc, if_neg hc]

theorem perm_sortBySimilarityDesc (l : List GuessResult) :
    (sortBySimilarityDesc l).Perm l := by
  induction l with
  | nil => simp [sortBySimilarityDesc]
  | cons g t ih =>
    exact (perm_insertDesc g (sortBySimilarityDesc t)).trans (ih.cons g)

theorem filter_insertDesc (q : ℚ) (g : GuessResult) (l : List GuessResult) :
    (insertDesc g l).filter (fun x => decide (x.similarity = q)) =
      if g.similarity = q
      then g :: l.filter (fun x => decide (x.similarity = q))
      else l.filter (fun x => decide (x.similarity = q)) := by
  induction l with
  | nil =>
    by_cases h : g.similarity = q <;> simp [insertDesc, List.filter, h]
  | cons h t ih =>
    by_cases hc : g.similarity < h.similarity
    · have step : (insertDesc g (h :: t)) = h :: insertDesc g t := by
        simp [insertDesc, hc]
      by_cases hq : g.similarity = q
      · have hh : ¬ h.similarity = q := by
          rw [← hq]; exact ne_of_gt hc
        simp [step, List.filter_cons, hh, ih, hq]
      · by_cases hh : h.similarity = q <;>
          simp [step, List.filter_cons, hh, ih, hq]
    · have step : (insertDesc g (h :: t)) = g :: h :: t := by
        simp [insertDesc, hc]
      by_cases hq : g.similarity = q <;> simp [step, List.filter_cons, hq]

theorem filter_sortBySimilarityDesc (q : ℚ) (l : List GuessResult) :
    (sortBySimilarityDesc l).filter (fun x => decide (x.similarity = q)) =
      l.filter (fun x => decide (x.similarity = q)) := by
  induction l with
  | nil => simp [sortBySimilarityDesc]
  | cons g t ih =>
    by_cases hq : g.similarity = q <;>
      simp [sortBySimilarityDesc, filter_insertDesc, hq, List.filter_cons, ih]

/-- C6: `top_k(n)` (`get_top_matches`) returns at most `n` guesses,
sorted non-increasingly by similarity; equal-similarity entries keep
their original insertion order (the filter at every similarity level is
a prefix of the ledger's filter); the empty ledger yields the empty
list; and the underlying sorted list is a permutation of the ledger. -/
theorem C6_top_k_ranking (st : SolverState) (n : ℕ) :
    (get_top_matches st n).length ≤ n
    ∧ (get_top_matches st n).Pairwise (fun a b => b.similarity ≤ a.similarity)
    ∧ (∀ q : ℚ, (get_top_matches st n).filter (fun g => decide (g.similarity = q)) <+:
        st.guess_history.filter (fun g => decide (g.similarity = q)))
    ∧ (st.guess_history = [] → get_top_matches st n = [])
    ∧ (sortBySimilarityDesc st.guess_history).Perm st.guess_history := by
  refine ⟨?_, ?_, ?_, ?_, perm_sortBySimilarityDesc _⟩
  · exact List.length_take_le n _
  · exact (pairwise_sortBySimilarityDesc st.guess_history).sublist
      (List.take_sublist n _)
  · intro q
    have h1 := ( List.take_prefix n (sortBySimilarityDesc st.guess_history)).filter
      (fun g => decide (g.similarity = q))
    rwa [filter_sortBySimilarityDesc] at h1
  · intro h
    simp [get_top_matches, h, sortBySimilarityDesc]

/-- Witness for C6 at a concrete empty ledger. -/
theorem C6_top_k_ranking_witness :
    get_top_matches stEmpty 5 = [] ∧ (get_top_matches stEmpty 5).length ≤ 5 :=
  ⟨(C6_top_k_ranking stEmpty 5).2.2.2.1 rfl, (C6_top_k_ranking stEmpty 5).1⟩

/-! ### C3: transient errors and the tried set -/

/-- A concrete submission attempt for the fixtures. -/
def wtAB : WordToTry := { word := wordAB, origin := [], origin_source := "seed" }

/-- Counterexample to C3 as stated: an HTTP error status (a transient
error that is not a rate limit) does NOT leave the state unchanged —
`tried_words.add` has already run when the error is classified, so the
word lands in the tried set (with no ledger entry) and can never be
chosen again. -/
theorem C3_transient_error_marks_tried_cex :
    (submit_guess stEmpty wtAB [ApiResponse.httpError] 5).1 = none
    ∧ (submit_guess stEmpty wtAB [ApiResponse.httpError] 5).2.1 ≠ stEmpty
    ∧ wordAB ∈ (submit_guess stEmpty wtAB [ApiResponse.httpError] 5).2.1.tried_words := by
  refine ⟨rfl, ?_, by decide⟩
  decide

/-- C3 amended: a transient failure of the request itself (network
error, raised by `requests.get`) leaves the whole state unchanged and
the word eligible again; but a transient error classified after a
response was received (an HTTP error status, a 400/404 body without
"Word not found", a malformed body) adds the word to the tried set while
appending nothing to the ledger, so the selector will not choose it
again.  In all four cases the call returns `None` after one request. -/
theorem C3_transient_error_state_effects (st : SolverState) (wt : WordToTry)
    (rest : List ApiResponse) (s : ℚ) (h : wt.word ∉ st.tried_words) :
    submit_guess st wt (ApiResponse.networkError :: rest) s = (none, st, 0, 1)
    ∧ submit_guess st wt (ApiResponse.httpError :: rest) s =
        (none, { st with tried_words := setAdd st.tried_words wt.word }, 0, 1)
    ∧ submit_guess st wt (ApiResponse.malformed :: rest) s =
        (none, { st with tried_words := setAdd st.tried_words wt.word }, 0, 1)
    ∧ submit_guess st wt (ApiResponse.badRequest false :: rest) s =
        (none, { st with tried_words := setAdd st.tried_words wt.word }, 0, 1) := by
  refine ⟨?_, ?_, ?_, ?_⟩ <;> simp [submit_guess, h]

/-- Witness for C3's amended statement at a concrete fresh state. -/
theorem C3_transient_error_state_effects_witness :
    submit_guess stEmpty wtAB (ApiResponse.networkError :: []) 5 = (none, stEmpty, 0, 1)
    ∧ submit_guess stEmpty wtAB (ApiResponse.httpError :: []) 5 =
        (none, { stEmpty with tried_words := setAdd stEmpty.tried_words wordAB }, 0, 1)
    ∧ submit_guess stEmpty wtAB (ApiResponse.malformed :: []) 5 =
        (none, { stEmpty with tried_words := setAdd stEmpty.tried_words wordAB }, 0, 1)
    ∧ submit_guess stEmpty wtAB (ApiResponse.badRequest false :: []) 5 =
        (none, { stEmpty with tried_words := setAdd stEmpty.tried_words wordAB }, 0, 1) :=
  C3_transient_error_state_effects stEmpty wtAB [] 5 (by decide)

/-! ### C4: rate-limit backoff -/

/-- Unfolding of the 429 branch: sleep `s`, then retry the same word
with the wait multiplied by 1.5. -/
theorem submit_guess_rateLimited (st : SolverState) (wt : WordToTry)
    (rest : List ApiResponse) (s : ℚ) (h : wt.word ∉ st.tried_words) :
    submit_guess st wt (ApiResponse.rateLimited :: rest) s =
      ((submit_guess st wt rest (s * (3/2))).1,
       (submit_guess st wt rest (s * (3/2))).2.1,
       s + (submit_guess st wt rest (s * (3/2))).2.2.1,
       (submit_guess st wt rest (s * (3/2))).2.2.2 + 1) := by
  simp [submit_guess, h]

/-- Counterexample to C4 as stated: after one rate-limit signal the
cumulative wait slept before the second attempt is the initial wait of 5
seconds, not `5 * 1.5^1`. -/
theorem C4_backoff_cumulative_cex :
    (submit_guess stEmpty wtAB
        [ApiResponse.rateLimited, ApiResponse.score 10 5] 5).2.2.1 = 5
    ∧ ¬ (submit_guess stEmpty wtAB
        [ApiResponse.rateLimited, ApiResponse.score 10 5] 5).2.2.1 = 5 * (3/2 : ℚ) ^ 1 := by
  have h : (submit_guess stEmpty wtAB
      [ApiResponse.rateLimited, ApiResponse.score 10 5] 5).2.2.1 = 5 := by
    simp [submit_guess, stEmpty, wtAB]
  refine ⟨h, ?_⟩
  rw [h]
  norm_num

/-- C4 amended: after `k` consecutive rate-limit signals the same word
is resubmitted on the `(k+1)`-th request with the wait multiplied by
1.5 at each retry and no bound on attempts, and the cumulative wait
slept before the `(k+1)`-th attempt is the geometric sum
`2 * initial_wait * (1.5^k - 1)` (not `initial_wait * 1.5^k`). -/
theorem C4_backoff_cumulative_wait (st : SolverState) (wt : WordToTry)
    (r : ApiResponse) (k : ℕ) (s : ℚ) (h1 : wt.word ∉ st.tried_words)
    (h2 : r ≠ ApiResponse.rateLimited) :
    (submit_guess st wt (List.replicate k ApiResponse.rateLimited ++ [r]) s).2.2.1
        = 2 * s * ((3/2) ^ k - 1)
    ∧ (submit_guess st wt (List.replicate k ApiResponse.rateLimited ++ [r]) s).2.2.2
        = k + 1 := by
  induction k generalizing s with
  | zero =>
    cases r with
    | rateLimited => exact absurd rfl h2
    | networkError => simp [submit_guess, h1]
    | badRequest wnf => cases wnf <;> simp [submit_guess, h1]
    | httpError => simp [submit_guess, h1]
    | malformed => simp [submit_guess, h1]
    | score q d => simp [submit_guess, h1]
  | succ k ih =>
    have hrw : List.replicate (k + 1) ApiResponse.rateLimited ++ [r] =
        ApiResponse.rateLimited :: (List.replicate k ApiResponse.rateLimited ++ [r]) := by
      simp [List.replicate_succ]
    rw [hrw, submit_guess_rateLimited st wt _ s h1]
    have hs := ih (s * (3/2))
    constructor
    · show s + (submit_guess st wt (List.replicate k ApiResponse.rateLimited ++ [r])
          (s * (3/2))).2.2.1 = _
      rw [hs.1]
      ring
    · show (submit_guess st wt (List.replicate k ApiResponse.rateLimited ++ [r])
          (s * (3/2))).2.2.2 + 1 = _
      rw [hs.2]

/-- Witness for C4's amended statement: two consecutive rate limits with
initial wait 5 give a cumulative wait of `2*5*((3/2)^2 - 1) = 12.5`. -/
theorem C4_backoff_cumulative_wait_witness :
    (submit_guess stEmpty wtAB
        (List.replicate 2 ApiResponse.rateLimited ++ [ApiResponse.score 10 5]) 5).2.2.1
        = 2 * 5 * ((3/2) ^ 2 - 1)
    ∧ (submit_guess stEmpty wtAB
        (List.replicate 2 ApiResponse.rateLimited ++ [ApiResponse.score 10 5]) 5).2.2.2
        = 2 + 1 :=
  C4_backoff_cumulative_wait stEmpty wtAB (ApiResponse.score 10 5) 2 5
    (by decide) (by decide)

/-! ### Cache behaviour helpers (C5, C7, C9) -/

theorem lookupAssoc_append_self (c : List (Word × List Word)) (w : Word)
    (v : List Word) (h : lookupAssoc c w = none) :
    lookupAssoc (c ++ [(w, v)]) w = some v := by
  induction c with
  | nil => simp [lookupAssoc]
  | cons kv rest ih =>
    obtain ⟨k, v'⟩ := kv
    by_cases hk : k = w
    · simp [lookupAssoc, hk] at h
    · simp only [lookupAssoc, List.cons_append, if_neg hk] at h ⊢
      exact ih h

/-- Negative-cache short circuit of the Wikipedia provider. -/
theorem cached_wiki_exhausted (Mn : Char → Bool) (lower : Char → Char)
    (pages : Word → List Word × List Word) (st : SolverState) (w : Word) (n : ℕ)
    (h : w ∈ st.wikipedia_exhausted) :
    get_cached_wikipedia_related_words Mn lower pages st w n = ([], st, 0) := by
  simp [get_cached_wikipedia_related_words, h]

/-- Cache hit of the Wikipedia provider. -/
theorem cached_wiki_hit (Mn : Char → Bool) (lower : Char → Char)
    (pages : Word → List Word × List Word) (st : SolverState) (w : Word) (n : ℕ)
    (l : List Word) (h1 : w ∉ st.wikipedia_exhausted)
    (h2 : lookupAssoc st.wikipedia_cache w = some l) :
    get_cached_wikipedia_related_words Mn lower pages st w n = (l, st, 0) := by
  simp [get_cached_wikipedia_related_words, h1, h2]

/-- Negative-cache short circuit of the Milog provider. -/
theorem cached_milog_exhausted (Mn : Char → Bool) (divs : Word → List Word)
    (st : SolverState) (w : Word) (n : ℕ) (h : w ∈ st.milog_exhausted) :
    get_cached_milog_related_words Mn divs st w n = ([], st, 0) := by
  simp [get_cached_milog_related_words, h]

/-- Cache hit of the Milog provider. -/
theorem cached_milog_hit (Mn : Char → Bool) (divs : Word → List Word)
    (st : SolverState) (w : Word) (n : ℕ) (l : List Word)
    (h1 : w ∉ st.milog_exhausted) (h2 : lookupAssoc st.milog_cache w = some l) :
    get_cached_milog_related_words Mn divs st w n = (l, st, 0) := by
  simp [get_cached_milog_related_words, h1, h2]

/-! ### C7: cache idempotence and negative caching -/

/-- C7: for a word not yet looked up on a provider, the first `expand`
call performs exactly one external lookup and caches the result (even if
empty), the second call returns the same list and leaves the state
untouched with zero lookups; and a lookup that yields zero candidates
puts the word in that provider's exhausted set, after which every call —
from any state whose exhausted set holds the word — returns the empty
list with zero lookups. -/
theorem C7_cache_idempotence (Mn : Char → Bool) (lower : Char → Char)
    (pages : Word → List Word × List Word) (divs : Word → List Word)
    (st : SolverState) (w : Word)
    (hw1 : w ∉ st.wikipedia_exhausted) (hw2 : lookupAssoc st.wikipedia_cache w = none)
    (hm1 : w ∉ st.milog_exhausted) (hm2 : lookupAssoc st.milog_cache w = none) :
    ((get_cached_wikipedia_related_words Mn lower pages st w 30).2.2 = 1
      ∧ get_cached_wikipedia_related_words Mn lower pages
          (get_cached_wikipedia_related_words Mn lower pages st w 30).2.1 w 30 =
          ((get_cached_wikipedia_related_words Mn lower pages st w 30).1,
           (get_cached_wikipedia_related_words Mn lower pages st w 30).2.1, 0)
      ∧ ((get_cached_wikipedia_related_words Mn lower pages st w 30).1 = [] →
           w ∈ (get_cached_wikipedia_related_words Mn lower pages st w 30).2.1.wikipedia_exhausted))
    ∧ ((get_cached_milog_related_words Mn divs st w 30).2.2 = 1
      ∧ get_cached_milog_related_words Mn divs
          (get_cached_milog_related_words Mn divs st w 30).2.1 w 30 =
          ((get_cached_milog_related_words Mn divs st w 30).1,
           (get_cached_milog_related_words Mn divs st w 30).2.1, 0)
      ∧ ((get_cached_milog_related_words Mn divs st w 30).1 = [] →
           w ∈ (get_cached_milog_related_words Mn divs st w 30).2.1.milog_exhausted))
    ∧ (∀ st2 : SolverState, w ∈ st2.wikipedia_exhausted →
        get_cached_wikipedia_related_words Mn lower pages st2 w 30 = ([], st2, 0))
    ∧ (∀ st2 : SolverState, w ∈ st2.milog_exhausted →
        get_cached_milog_related_words Mn divs st2 w 30 = ([], st2, 0)) := by
  refine ⟨?_, ?_, fun st2 h => cached_wiki_exhausted Mn lower pages st2 w 30 h,
    fun st2 h => cached_milog_exhausted Mn divs st2 w 30 h⟩
  · by_cases hR : get_related_words_from_wikipedia Mn lower pages st.language
        st.tried_words w 30 = []
    · refine ⟨?_, ?_, ?_⟩ <;>
        simp [get_cached_wikipedia_related_words, hw1, hw2, hR]
    · have hlen : ¬ (get_related_words_from_wikipedia Mn lower pages st.language
          st.tried_words w 30).length = 0 := by
        simpa [List.length_eq_zero] using hR
      have hfresh : get_cached_wikipedia_related_words Mn lower pages st w 30 =
          (get_related_words_from_wikipedia Mn lower pages st.language st.tried_words w 30,
           { st with wikipedia_cache := st.wikipedia_cache ++
               [(w, get_related_words_from_wikipedia Mn lower pages st.language
                   st.tried_words w 30)] }, 1) := by
        simp [get_cached_wikipedia_related_words, hw1, hw2, hlen]
      refine ⟨by rw [hfresh], ?_, by rw [hfresh]; exact fun h => absurd h hR⟩
      rw [hfresh]
      exact cached_wiki_hit Mn lower pages _ w 30 _ hw1
        (lookupAssoc_append_self st.wikipedia_cache w _ hw2)
  · by_cases hR : get_related_words_from_milog Mn divs st.tried_words w 30 = []
    · refine ⟨?_, ?_, ?_⟩ <;>
        simp [get_cached_milog_related_words, hm1, hm2, hR]
    · have hlen : ¬ (get_related_words_from_milog Mn divs st.tried_words w 30).length = 0 := by
        simpa [List.length_eq_zero] using hR
      have hfresh : get_cached_milog_related_words Mn divs st w 30 =
          (get_related_words_from_milog Mn divs st.tried_words w 30,
           { st with milog_cache := st.milog_cache ++
               [(w, get_related_words_from_milog Mn divs st.tried_words w 30)] }, 1) := by
        simp [get_cached_milog_related_words, hm1, hm2, hlen]
      refine ⟨by rw [hfresh], ?_, by rw [hfresh]; exact fun h => absurd h hR⟩
      rw [hfresh]
      exact cached_milog_hit Mn divs _ w 30 _ hm1
        (lookupAssoc_append_self st.milog_cache w _ hm2)

/-- Witness for C7 at the fresh initial state (both lookups come back
empty, so the word enters both exhausted sets). -/
theorem C7_cache_idempotence_witness :
    (get_cached_wikipedia_related_words Mn0 lower0 pages0 stEmpty wordAB 30).2.2 = 1
    ∧ (∀ st2 : SolverState, wordAB ∈ st2.wikipedia_exhausted →
        get_cached_wikipedia_related_words Mn0 lower0 pages0 st2 wordAB 30 = ([], st2, 0)) :=
  ⟨(C7_cache_idempotence Mn0 lower0 pages0 divs0 stEmpty wordAB
      (by decide) (by decide) (by decide) (by decide)).1.1,
   (C7_cache_idempotence Mn0 lower0 pages0 divs0 stEmpty wordAB
      (by decide) (by decide) (by decide) (by decide)).2.2.1⟩

/-! ### C9: flushes never touch the exhausted sets -/

/-- Model of `submit_guess` touches only `tried_words` and `guess_history`. -/
theorem submit_guess_preserves_caches (st : SolverState) (wt : WordToTry) :
    ∀ (responses : List ApiResponse) (s : ℚ),
    (submit_guess st wt responses s).2.1.wikipedia_exhausted = st.wikipedia_exhausted
    ∧ (submit_guess st wt responses s).2.1.milog_exhausted = st.milog_exhausted
    ∧ (submit_guess st wt responses s).2.1.wikipedia_cache = st.wikipedia_cache
    ∧ (submit_guess st wt responses s).2.1.milog_cache = st.milog_cache := by
  intro responses
  induction responses with
  | nil =>
    intro s
    by_cases h : wt.word ∈ st.tried_words <;> simp [submit_guess, h]
  | cons r rest ih =>
    intro s
    by_cases h : wt.word ∈ st.tried_words
    · simp [submit_guess_of_mem_tried st wt _ s h]
    · cases r with
      | rateLimited =>
        rw [submit_guess_rateLimited st wt rest s h]
        exact ih (s * (3/2))
      | networkError => simp [submit_guess, h]
      | badRequest wnf => cases wnf <;> simp [submit_guess, h]
      | httpError => simp [submit_guess, h]
      | malformed => simp [submit_guess, h]
      | score q d => simp [submit_guess, h]

/-- The exhausted sets only ever grow (by appending at the end) under
any state mutation of the run loop. -/
theorem applyOp_exhausted_mono (Mn : Char → Bool) (lower : Char → Char)
    (pages : Word → List Word × List Word) (divs : Word → List Word)
    (st : SolverState) (op : SolverOp) :
    st.wikipedia_exhausted <+: (applyOp Mn lower pages divs st op).wikipedia_exhausted
    ∧ st.milog_exhausted <+: (applyOp Mn lower pages divs st op).milog_exhausted := by
  cases op with
  | lookupWiki w =>
    by_cases h1 : w ∈ st.wikipedia_exhausted
    · simp [applyOp, cached_wiki_exhausted Mn lower pages st w 30 h1]
    · match h2 : lookupAssoc st.wikipedia_cache w with
      | some l => simp [applyOp, cached_wiki_hit Mn lower pages st w 30 l h1 h2]
      | none =>
        simp only [applyOp, get_cached_wikipedia_related_words, if_neg h1, h2]
        by_cases hR : (get_related_words_from_wikipedia Mn lower pages st.language
            st.tried_words w 30).length = 0 <;>
          simp [hR, List.prefix_append]
  | lookupMilog w =>
    by_cases h1 : w ∈ st.milog_exhausted
    · simp [applyOp, cached_milog_exhausted Mn divs st w 30 h1]
    · match h2 : lookupAssoc st.milog_cache w with
      | some l => simp [applyOp, cached_milog_hit Mn divs st w 30 l h1 h2]
      | none =>
        simp only [applyOp, get_cached_milog_related_words, if_neg h1, h2]
        by_cases hR : (get_related_words_from_milog Mn divs st.tried_words w 30).length = 0 <;>
          simp [hR, List.prefix_append]
  | flushWiki => simp [applyOp, flush_wikipedia_cache]
  | flushMilog => simp [applyOp, flush_milog_cache]
  | submit wt responses sleep =>
    have h := submit_guess_preserves_caches st wt responses sleep
    simp [applyOp, h.1, h.2.1]

theorem runOps_exhausted_mono (Mn : Char → Bool) (lower : Char → Char)
    (pages : Word → List Word × List Word) (divs : Word → List Word) :
    ∀ (ops : List SolverOp) (st : SolverState),
    st.wikipedia_exhausted <+: (runOps Mn lower pages divs st ops).wikipedia_exhausted
    ∧ st.milog_exhausted <+: (runOps Mn lower pages divs st ops).milog_exhausted := by
  intro ops
  induction ops with
  | nil => intro st; simp [runOps]
  | cons op rest ih =>
    intro st
    have h1 := applyOp_exhausted_mono Mn lower pages divs st op
    have h2 := ih (applyOp Mn lower pages divs st op)
    exact ⟨h1.1.trans h2.1, h1.2.trans h2.2⟩

/-- C9: the periodic wholesale flushes clear only the providers' caches
and never touch the exhausted sets; across any sequence of run-loop
operations (lookups, flushes, submissions) each exhausted set grows
monotonically (the old set is a prefix of the new one); hence a word
once marked exhausted for a provider triggers no external lookup for
that provider ever again, no matter how many flushes intervene. -/
theorem C9_flush_preserves_exhausted (Mn : Char → Bool) (lower : Char → Char)
    (pages : Word → List Word × List Word) (divs : Word → List Word) :
    (∀ st : SolverState,
        (flush_wikipedia_cache st).wikipedia_exhausted = st.wikipedia_exhausted
        ∧ (flush_wikipedia_cache st).milog_exhausted = st.milog_exhausted
        ∧ (flush_wikipedia_cache st).wikipedia_cache = []
        ∧ (flush_milog_cache st).wikipedia_exhausted = st.wikipedia_exhausted
        ∧ (flush_milog_cache st).milog_exhausted = st.milog_exhausted
        ∧ (flush_milog_cache st).milog_cache = [])
    ∧ (∀ (st : SolverState) (ops : List SolverOp),
        st.wikipedia_exhausted <+:
          (runOps Mn lower pages divs st ops).wikipedia_exhausted
        ∧ st.milog_exhausted <+: (runOps Mn lower pages divs st ops).milog_exhausted)
    ∧ (∀ (st : SolverState) (ops : List SolverOp) (w : Word),
        w ∈ st.wikipedia_exhausted →
        get_cached_wikipedia_related_words Mn lower pages
            (runOps Mn lower pages divs st ops) w 30 =
          ([], runOps Mn lower pages divs st ops, 0))
    ∧ (∀ (st : SolverState) (ops : List SolverOp) (w : Word),
        w ∈ st.milog_exhausted →
        get_cached_milog_related_words Mn divs (runOps Mn lower pages divs st ops) w 30 =
          ([], runOps Mn lower pages divs st ops, 0)) := by
  refine ⟨?_, fun st ops => runOps_exhausted_mono Mn lower pages divs ops st, ?_, ?_⟩
  · intro st
    simp [flush_wikipedia_cache, flush_milog_cache]
  · intro st ops w hw
    have hpre := (runOps_exhausted_mono Mn lower pages divs ops st).1
    exact cached_wiki_exhausted Mn lower pages _ w 30 (hpre.sublist.subset hw)
  · intro st ops w hw
    have hpre := (runOps_exhausted_mono Mn lower pages divs ops st).2
    exact cached_milog_exhausted Mn divs _ w 30 (hpre.sublist.subset hw)

/-- Witness for C9: after a lookup that exhausts the word and a flush of
both caches, the word still triggers no external Milog or Wikipedia
lookup. -/
theorem C9_flush_preserves_exhausted_witness :
    get_cached_wikipedia_related_words Mn0 lower0 pages0
        (runOps Mn0 lower0 pages0 divs0
          { stEmpty with wikipedia_exhausted := [wordAB], milog_exhausted := [wordAB] }
          [SolverOp.flushWiki, SolverOp.flushMilog]) wordAB 30 =
      ([], runOps Mn0 lower0 pages0 divs0
          { stEmpty with wikipedia_exhausted := [wordAB], milog_exhausted := [wordAB] }
          [SolverOp.flushWiki, SolverOp.flushMilog], 0) :=
  (C9_flush_preserves_exhausted Mn0 lower0 pages0 divs0).2.2.1
    { stEmpty with wikipedia_exhausted := [wordAB], milog_exhausted := [wordAB] }
    [SolverOp.flushWiki, SolverOp.flushMilog] wordAB (by decide)

/-! ### C2: the provenance walk on a cyclic origin chain -/

/-- A guess whose origin is `guessB.word`. -/
def guessA : GuessResult :=
  { word := ['a'], similarity := 10, distance := 1, origin := ['b'],
    origin_source := "wiki", guess_number := 1 }

/-- A guess whose origin is `guessA.word` — together a 2-cycle. -/
def guessB : GuessResult :=
  { word := ['b'], similarity := 20, distance := 2, origin := ['a'],
    origin_source := "wiki", guess_number := 2 }

/-- A ledger whose origin chain is cyclic: A's origin is B and B's
origin is A. -/
def cyclicHistory : List GuessResult := [guessA, guessB]

theorem print_word_path_cycle_aux : ∀ fuel : ℕ,
    print_word_path cyclicHistory fuel guessA = none
    ∧ print_word_path cyclicHistory fuel guessB = none := by
  intro fuel
  induction fuel with
  | zero => exact ⟨by simp [print_word_path], by simp [print_word_path]⟩
  | succ fuel ih =>
    have ihA := ih.1
    have ihB := ih.2
    simp only [cyclicHistory, guessA, guessB] at ihA ihB
    constructor
    · simp [print_word_path, printPathMatches, cyclicHistory, guessA, guessB, ihA, ihB]
    · simp [print_word_path, printPathMatches, cyclicHistory, guessA, guessB, ihA, ihB]

/-- C2: contrary to the claim, `print_word_path` keeps no visited set —
on the artificially cyclic two-guess ledger the recursion completes at
no depth: the step-indexed model returns `none` for every amount of
fuel, i.e. the source recursion never terminates (in CPython it aborts
with `RecursionError`). -/
theorem C2_print_word_path_cycle_diverges :
    ∀ fuel : ℕ, print_word_path cyclicHistory fuel guessA = none :=
  fun fuel => (print_word_path_cycle_aux fuel).1

/-! ### C1: the search width is never actually widened -/

/-- The i-th distinct one-character word of the fixture ledger. -/
def wordOfIdx (i : ℕ) : Word := [Char.ofNat (0x05D0 + i)]

/-- The i-th ledger entry of the fixture: strictly decreasing similarity,
so ranking equals insertion order. -/
def guessOfIdx (i : ℕ) : GuessResult :=
  { word := wordOfIdx i, similarity := ((100 - i : ℕ) : ℚ), distance := 0,
    origin := [], origin_source := "random", guess_number := i + 1 }

/-- A state after an increment of `top_words_to_find_relations` (so the
claimed search width is 71) whose ledger holds 71 scored guesses. -/
def st71 : SolverState :=
  { language := "hebrew",
    guess_history := (List.range 71).map guessOfIdx,
    tried_words := (List.range 71).map wordOfIdx,
    wikipedia_cache := [], wikipedia_exhausted := [],
    milog_cache := [], milog_exhausted := [],
    seed_word := [], top_words_to_find_relations := 71 }

/-- A Wikipedia in which only the 71st-ranked word's page has a link —
to the untried word `wordGD`. -/
def pages71 : Word → List Word × List Word :=
  fun w => if w = wordOfIdx 70 then ([wordGD], []) else ([], [])

/-- C1: the `top_matches_to_search` parameter of
`get_word_to_try_from_related_word` is dead (the body reads a literal
`get_top_matches(70)`), so incrementing SearchWidth widens nothing.
Concretely: in a 71-guess state whose claimed width is 71, where the
71st-ranked word's expansion holds an untried candidate, the pass —
asked for 71 and even for the last-ditch 10^9 top matches — still finds
nothing. -/
theorem C1_search_width_not_widened :
    (∀ (Mn : Char → Bool) (lower : Char → Char) (pick : List Word → Word)
        (pages : Word → List Word × List Word) (divs : Word → List Word)
        (st : SolverState) (k1 k2 : ℕ),
        get_word_to_try_from_related_word Mn lower pick pages divs st k1 =
          get_word_to_try_from_related_word Mn lower pick pages divs st k2)
    ∧ (get_top_matches st71 71).length = 71
    ∧ get_related_words_from_wikipedia Mn0 lower0 pages71 "hebrew"
        st71.tried_words (wordOfIdx 70) 30 = [wordGD]
    ∧ (get_word_to_try_from_related_word Mn0 lower0 pick0 pages71 divs0 st71 71).1 = none
    ∧ (get_word_to_try_from_related_word Mn0 lower0 pick0 pages71 divs0 st71
        1000000000).1 = none := by
  refine ⟨fun _ _ _ _ _ _ _ _ => rfl, ?_, ?_, ?_, ?_⟩
  · decide
  · decide
  · decide
  · decide

/-! ### C5: the expand contract -/

/-- The per-element contract of a fresh Wikipedia expansion: not the
base word, not tried (at lookup time), at least two characters, and on
the Hebrew profile inside the Hebrew block. -/
def wikiWordOk (language : String) (tried : List Word) (base_word : Word)
    (x : Word) : Prop :=
  x ≠ base_word ∧ x ∉ tried ∧ 2 ≤ x.length
    ∧ (language = "hebrew" → is_hebrew x = true)

theorem extractLoop_ok (Mn : Char → Bool) (lower : Char → Char)
    (language : String) (tried : List Word) (base_word : Word) (max_words : ℕ) :
    ∀ (toks : List Word) (related : List Word),
    (∀ x ∈ related, wikiWordOk language tried base_word x) → related.Nodup →
    (∀ x ∈ extractLoop Mn lower language tried base_word max_words related toks,
        wikiWordOk language tried base_word x)
    ∧ (extractLoop Mn lower language tried base_word max_words related toks).Nodup := by
  intro toks
  induction toks with
  | nil =>
    intro related h1 h2
    simpa [extractLoop] using ⟨h1, h2⟩
  | cons tok toks ih =>
    intro related h1 h2
    simp only [extractLoop]
    by_cases hheb : language = "hebrew"
        ∧ ¬ is_hebrew (if language = "english"
            then (remove_niqqud Mn tok).map lower else remove_niqqud Mn tok) = true
    · simp only [if_pos hheb]
      exact ih related h1 h2
    · simp only [if_neg hheb]
      by_cases hskip : (if language = "english"
            then (remove_niqqud Mn tok).map lower else remove_niqqud Mn tok).length < 2
          ∨ (if language = "english"
            then (remove_niqqud Mn tok).map lower else remove_niqqud Mn tok) = base_word
          ∨ (if language = "english"
            then (remove_niqqud Mn tok).map lower else remove_niqqud Mn tok) ∈ tried
          ∨ (if language = "english"
            then (remove_niqqud Mn tok).map lower else remove_niqqud Mn tok) ∈ related
      · simp only [if_pos hskip]
        exact ih related h1 h2
      · simp only [if_neg hskip]
        push_neg at hskip
        obtain ⟨hlen, hbase, htried, hrel⟩ := hskip
        have hok : wikiWordOk language tried base_word
            (if language = "english"
              then (remove_niqqud Mn tok).map lower else remove_niqqud Mn tok) := by
          refine ⟨hbase, htried, by omega, fun hl => ?_⟩
          by_contra hcontra
          exact hheb ⟨hl, hcontra⟩
        have h1' : ∀ x ∈ related ++ [if language = "english"
            then (remove_niqqud Mn tok).map lower else remove_niqqud Mn tok],
            wikiWordOk language tried base_word x := by
          intro x hx
          rcases List.mem_append.mp hx with hx | hx
          · exact h1 x hx
          · rw [List.mem_singleton.mp hx]
            exact hok
        have h2' : (related ++ [if language = "english"
            then (remove_niqqud Mn tok).map lower else remove_niqqud Mn tok]).Nodup := by
          refine List.Nodup.append h2 (List.nodup_singleton _) ?_
          intro a ha hb
          rw [List.mem_singleton.mp hb] at ha
          exact hrel ha
        by_cases hfull : max_words ≤ (related ++ [if language = "english"
            then (remove_niqqud Mn tok).map lower else remove_niqqud Mn tok]).length
        · simp only [if_pos hfull]
          exact ⟨h1', h2'⟩
        · simp only [if_neg hfull]
          exact ih _ h1' h2'

theorem extract_phrase_ok (Mn : Char → Bool) (lower : Char → Char)
    (language : String) (tried : List Word) (base_word : Word) (max_words : ℕ)
    (phrase : Word) (related : List Word)
    (h1 : ∀ x ∈ related, wikiWordOk language tried base_word x)
    (h2 : related.Nodup) :
    (∀ x ∈ extract_words_from_wikitext_phrase Mn lower language tried base_word
        phrase related max_words, wikiWordOk language tried base_word x)
    ∧ (extract_words_from_wikitext_phrase Mn lower language tried base_word
        phrase related max_words).Nodup :=
  extractLoop_ok Mn lower language tried base_word max_words _ related h1 h2

theorem extract_phrases_foldl_ok (Mn : Char → Bool) (lower : Char → Char)
    (language : String) (tried : List Word) (base_word : Word) (max_words : ℕ) :
    ∀ (phrases : List Word) (related : List Word),
    (∀ x ∈ related, wikiWordOk language tried base_word x) → related.Nodup →
    (∀ x ∈ phrases.foldl
        (fun rel ph => extract_words_from_wikitext_phrase Mn lower language tried
          base_word ph rel max_words) related,
        wikiWordOk language tried base_word x)
    ∧ (phrases.foldl
        (fun rel ph => extract_words_from_wikitext_phrase Mn lower language tried
          base_word ph rel max_words) related).Nodup := by
  intro phrases
  induction phrases with
  | nil => intro related h1 h2; simpa using ⟨h1, h2⟩
  | cons ph phs ih =>
    intro related h1 h2
    simp only [List.foldl_cons]
    have h := extract_phrase_ok Mn lower language tried base_word max_words ph
      related h1 h2
    exact ih _ h.1 h.2

/-- Contract of a fresh Wikipedia lookup: distinct entries, at most
`max_words` of them, each satisfying the per-element contract relative
to the tried set passed in (the tried set at lookup time). -/
theorem get_related_words_from_wikipedia_ok (Mn : Char → Bool) (lower : Char → Char)
    (pages : Word → List Word × List Word) (language : String)
    (tried : List Word) (word : Word) (max_words : ℕ) :
    (∀ x ∈ get_related_words_from_wikipedia Mn lower pages language tried word
        max_words, wikiWordOk language tried word x)
    ∧ (get_related_words_from_wikipedia Mn lower pages language tried word
        max_words).Nodup
    ∧ (get_related_words_from_wikipedia Mn lower pages language tried word
        max_words).length ≤ max_words := by
  have hlinks := extract_phrases_foldl_ok Mn lower language tried word max_words
    (pages word).1 [] (by simp) List.nodup_nil
  have hbody := extract_phrases_foldl_ok Mn lower language tried word max_words
    (pages word).2 _ hlinks.1 hlinks.2
  unfold get_related_words_from_wikipedia
  by_cases hcond : language = "hebrew"
      ∧ ((pages word).1.foldl
          (fun rel ph => extract_words_from_wikitext_phrase Mn lower language tried
            word ph rel max_words) []).length < max_words
  · simp only [if_pos hcond]
    refine ⟨fun x hx => hbody.1 x (List.mem_of_mem_take hx),
      hbody.2.sublist (List.take_sublist _ _), List.length_take_le _ _⟩
  · simp only [if_neg hcond]
    refine ⟨fun x hx => hlinks.1 x (List.mem_of_mem_take hx),
      hlinks.2.sublist (List.take_sublist _ _), List.length_take_le _ _⟩

/-- The per-element contract of a fresh Milog expansion. -/
def milogWordOk (tried : List Word) (word : Word) (x : Word) : Prop :=
  x ≠ word ∧ x ∉ tried ∧ 2 ≤ x.length ∧ ∀ c ∈ x, isHebLetter c = true

theorem hebrewFindallAux_ok :
    ∀ (l : List Char) (cur : Word), (∀ c ∈ cur, isHebLetter c = true) →
    ∀ w ∈ hebrewFindallAux l cur, 2 ≤ w.length ∧ ∀ c ∈ w, isHebLetter c = true := by
  intro l
  induction l with
  | nil =>
    intro cur hcur w hw
    simp only [hebrewFindallAux] at hw
    by_cases hlen : 2 ≤ cur.length
    · simp only [if_pos hlen, List.mem_singleton] at hw
      subst hw
      refine ⟨by simpa using hlen, fun c hc => hcur c (List.mem_reverse.mp hc)⟩
    · simp [if_neg hlen] at hw
  | cons c cs ih =>
    intro cur hcur w hw
    simp only [hebrewFindallAux] at hw
    by_cases hc : isHebLetter c = true
    · rw [if_pos hc] at hw
      refine ih (c :: cur) ?_ w hw
      intro x hx
      rcases List.mem_cons.mp hx with rfl | hx
      · exact hc
      · exact hcur x hx
    · rw [if_neg hc] at hw
      rcases List.mem_append.mp hw with hw | hw
      · by_cases hlen : 2 ≤ cur.length
        · simp only [if_pos hlen, List.mem_singleton] at hw
          subst hw
          refine ⟨by simpa using hlen, fun x hx => hcur x (List.mem_reverse.mp hx)⟩
        · simp [if_neg hlen] at hw
      · exact ih [] (by simp) w hw

theorem hebrewWordFindall_ok (t : Word) :
    ∀ w ∈ hebrewWordFindall t, 2 ≤ w.length ∧ ∀ c ∈ w, isHebLetter c = true :=
  hebrewFindallAux_ok t [] (by simp)

theorem milogCandLoop_ok (tried : List Word) (word : Word) (max_words : ℕ) :
    ∀ (cands : List Word) (related : List Word),
    (∀ x ∈ cands, 2 ≤ x.length ∧ ∀ c ∈ x, isHebLetter c = true) →
    (∀ x ∈ related, milogWordOk tried word x) → related.Nodup →
    (∀ x ∈ milogCandLoop tried word max_words related cands, milogWordOk tried word x)
    ∧ (milogCandLoop tried word max_words related cands).Nodup := by
  intro cands
  induction cands with
  | nil => intro related _ h1 h2; simpa [milogCandLoop] using ⟨h1, h2⟩
  | cons cand cands ih =>
    intro related hc h1 h2
    simp only [milogCandLoop]
    have hcands : ∀ x ∈ cands, 2 ≤ x.length ∧ ∀ c ∈ x, isHebLetter c = true :=
      fun x hx => hc x (List.mem_cons_of_mem _ hx)
    by_cases hskip : cand = word ∨ cand ∈ tried ∨ cand ∈ related
    · simp only [if_pos hskip]
      exact ih related hcands h1 h2
    · simp only [if_neg hskip]
      push_neg at hskip
      obtain ⟨hne, htried, hrel⟩ := hskip
      have hcand := hc cand (List.mem_cons_self _ _)
      have h1' : ∀ x ∈ related ++ [cand], milogWordOk tried word x := by
        intro x hx
        rcases List.mem_append.mp hx with hx | hx
        · exact h1 x hx
        · rw [List.mem_singleton.mp hx]
          exact ⟨hne, htried, hcand.1, hcand.2⟩
      have h2' : (related ++ [cand]).Nodup := by
        refine List.Nodup.append h2 (List.nodup_singleton _) ?_
        intro a ha hb
        rw [List.mem_singleton.mp hb] at ha
        exact hrel ha
      by_cases hfull : max_words ≤ (related ++ [cand]).length
      · simp only [if_pos hfull]
        exact ⟨h1', h2'⟩
      · simp only [if_neg hfull]
        exact ih _ hcands h1' h2'

theorem milogDivLoop_ok (Mn : Char → Bool) (tried : List Word) (word : Word)
    (max_words : ℕ) :
    ∀ (ds : List Word) (related : List Word),
    (∀ x ∈ related, milogWordOk tried word x) → related.Nodup →
    (∀ x ∈ milogDivLoop Mn tried word max_words related ds, milogWordOk tried word x)
    ∧ (milogDivLoop Mn tried word max_words related ds).Nodup := by
  intro ds
  induction ds with
  | nil => intro related h1 h2; simpa [milogDivLoop] using ⟨h1, h2⟩
  | cons d ds ih =>
    intro related h1 h2
    simp only [milogDivLoop]
    have h := milogCandLoop_ok tried word max_words
      (hebrewWordFindall (normalize_hebrew_token Mn d)) related
      (hebrewWordFindall_ok _) h1 h2
    exact ih _ h.1 h.2

/-- Contract of a fresh Milog lookup. -/
theorem get_related_words_from_milog_ok (Mn : Char → Bool) (divs : Word → List Word)
    (tried : List Word) (word : Word) (max_words : ℕ) :
    (∀ x ∈ get_related_words_from_milog Mn divs tried word max_words,
        milogWordOk tried word x)
    ∧ (get_related_words_from_milog Mn divs tried word max_words).Nodup
    ∧ (get_related_words_from_milog Mn divs tried word max_words).length ≤ max_words := by
  have h := milogDivLoop_ok Mn tried word max_words (divs word) [] (by simp)
    List.nodup_nil
  unfold get_related_words_from_milog
  exact ⟨fun x hx => h.1 x (List.mem_of_mem_take hx),
    h.2.sublist (List.take_sublist _ _), List.length_take_le _ _⟩

/-- A fresh Wikipedia `expand` call returns exactly the fresh lookup's
list. -/
theorem cached_wiki_fresh_fst (Mn : Char → Bool) (lower : Char → Char)
    (pages : Word → List Word × List Word) (st : SolverState) (w : Word) (n : ℕ)
    (h1 : w ∉ st.wikipedia_exhausted) (h2 : lookupAssoc st.wikipedia_cache w = none) :
    (get_cached_wikipedia_related_words Mn lower pages st w n).1 =
      get_related_words_from_wikipedia Mn lower pages st.language st.tried_words w n := by
  by_cases hR : (get_related_words_from_wikipedia Mn lower pages st.language
      st.tried_words w n).length = 0 <;>
    simp [get_cached_wikipedia_related_words, h1, h2, hR]

/-- A fresh Milog `expand` call returns exactly the fresh lookup's list. -/
theorem cached_milog_fresh_fst (Mn : Char → Bool) (divs : Word → List Word)
    (st : SolverState) (w : Word) (n : ℕ)
    (h1 : w ∉ st.milog_exhausted) (h2 : lookupAssoc st.milog_cache w = none) :
    (get_cached_milog_related_words Mn divs st w n).1 =
      get_related_words_from_milog Mn divs st.tried_words w n := by
  by_cases hR : (get_related_words_from_milog Mn divs st.tried_words w n).length = 0 <;>
    simp [get_cached_milog_related_words, h1, h2, hR]

/-- A solver state with its tried set replaced: models the tried set
having changed between two `expand` calls for the same word. -/
def withTried (st : SolverState) (t : List Word) : SolverState :=
  { st with tried_words := t }

/-- Counterexample to C5 as stated: a call answered from the memoization
cache is NOT re-filtered against the current tried set.  Starting from
the fresh state, expanding `wordAB` caches `[wordGD]`; after `wordGD`
becomes tried, the cached call still returns `[wordGD]`, a word already
in the TriedSet at the time of the call. -/
theorem C5_cached_expand_returns_tried_word_cex :
    (get_cached_wikipedia_related_words Mn0 lower0
        (fun w => if w = wordAB then ([wordGD], []) else ([], []))
        stEmpty wordAB 30).1 = [wordGD]
    ∧ (get_cached_wikipedia_related_words Mn0 lower0
        (fun w => if w = wordAB then ([wordGD], []) else ([], []))
        (withTried (get_cached_wikipedia_related_words Mn0 lower0
            (fun w => if w = wordAB then ([wordGD], []) else ([], []))
            stEmpty wordAB 30).2.1 [wordGD]) wordAB 30).1 = [wordGD]
    ∧ wordGD ∈ (withTried (get_cached_wikipedia_related_words Mn0 lower0
            (fun w => if w = wordAB then ([wordGD], []) else ([], []))
            stEmpty wordAB 30).2.1 [wordGD]).tried_words := by
  refine ⟨by decide, by decide, by decide⟩

/-- C5 amended: an `expand` call answered by a fresh lookup returns an
ordered list of distinct words, of length at most `max_count`, that
contains neither the base word, nor any word in the TriedSet at the time
of that call, nor any word shorter than two characters, nor (on the
Hebrew profile) any word outside the Hebrew script, diacritic marks
being stripped before the checks.  A call answered from the cache or the
negative cache, however, returns the previously computed list unchanged
without re-filtering — in particular it is unaffected by any later
change of the tried set. -/
theorem C5_expand_contract (Mn : Char → Bool) (lower : Char → Char)
    (pages : Word → List Word × List Word) (divs : Word → List Word)
    (st : SolverState) (w : Word)
    (hw1 : w ∉ st.wikipedia_exhausted) (hw2 : lookupAssoc st.wikipedia_cache w = none)
    (hm1 : w ∉ st.milog_exhausted) (hm2 : lookupAssoc st.milog_cache w = none) :
    ((get_cached_wikipedia_related_words Mn lower pages st w 30).1.Nodup
      ∧ (get_cached_wikipedia_related_words Mn lower pages st w 30).1.length ≤ 30
      ∧ (∀ x ∈ (get_cached_wikipedia_related_words Mn lower pages st w 30).1,
          x ≠ w ∧ x ∉ st.tried_words ∧ 2 ≤ x.length
            ∧ (st.language = "hebrew" → is_hebrew x = true)))
    ∧ ((get_cached_milog_related_words Mn divs st w 30).1.Nodup
      ∧ (get_cached_milog_related_words Mn divs st w 30).1.length ≤ 30
      ∧ (∀ x ∈ (get_cached_milog_related_words Mn divs st w 30).1,
          x ≠ w ∧ x ∉ st.tried_words ∧ 2 ≤ x.length ∧ ∀ c ∈ x, isHebLetter c = true))
    ∧ (∀ tried2 : List Word,
        (get_cached_wikipedia_related_words Mn lower pages
          (withTried (get_cached_wikipedia_related_words Mn lower pages st w 30).2.1
            tried2) w 30).1 =
        (get_cached_wikipedia_related_words Mn lower pages st w 30).1)
    ∧ (∀ tried2 : List Word,
        (get_cached_milog_related_words Mn divs
          (withTried (get_cached_milog_related_words Mn divs st w 30).2.1 tried2)
          w 30).1 =
        (get_cached_milog_related_words Mn divs st w 30).1) := by
  have hwfst := cached_wiki_fresh_fst Mn lower pages st w 30 hw1 hw2
  have hmfst := cached_milog_fresh_fst Mn divs st w 30 hm1 hm2
  have hwok := get_related_words_from_wikipedia_ok Mn lower pages st.language
    st.tried_words w 30
  have hmok := get_related_words_from_milog_ok Mn divs st.tried_words w 30
  have hwexh : (get_cached_wikipedia_related_words Mn lower pages st w 30).2.1.wikipedia_exhausted =
      if (get_related_words_from_wikipedia Mn lower pages st.language
          st.tried_words w 30).length = 0
      then st.wikipedia_exhausted ++ [w] else st.wikipedia_exhausted := by
    by_cases hR : (get_related_words_from_wikipedia Mn lower pages st.language
        st.tried_words w 30).length = 0 <;>
      simp [get_cached_wikipedia_related_words, hw1, hw2, hR]
  have hwcache : (get_cached_wikipedia_related_words Mn lower pages st w 30).2.1.wikipedia_cache =
      st.wikipedia_cache ++ [(w, get_related_words_from_wikipedia Mn lower pages
        st.language st.tried_words w 30)] := by
    by_cases hR : (get_related_words_from_wikipedia Mn lower pages st.language
        st.tried_words w 30).length = 0 <;>
      simp [get_cached_wikipedia_related_words, hw1, hw2, hR]
  have hmexh : (get_cached_milog_related_words Mn divs st w 30).2.1.milog_exhausted =
      if (get_related_words_from_milog Mn divs st.tried_words w 30).length = 0
      then st.milog_exhausted ++ [w] else st.milog_exhausted := by
    by_cases hR : (get_related_words_from_milog Mn divs st.tried_words w 30).length = 0 <;>
      simp [get_cached_milog_related_words, hm1, hm2, hR]
  have hmcache : (get_cached_milog_related_words Mn divs st w 30).2.1.milog_cache =
      st.milog_cache ++ [(w, get_related_words_from_milog Mn divs st.tried_words w 30)] := by
    by_cases hR : (get_related_words_from_milog Mn divs st.tried_words w 30).length = 0 <;>
      simp [get_cached_milog_related_words, hm1, hm2, hR]
  refine ⟨⟨?_, ?_, ?_⟩, ⟨?_, ?_, ?_⟩, ?_, ?_⟩
  · rw [hwfst]; exact hwok.2.1
  · rw [hwfst]; exact hwok.2.2
  · rw [hwfst]; exact fun x hx => hwok.1 x hx
  · rw [hmfst]; exact hmok.2.1
  · rw [hmfst]; exact hmok.2.2
  · rw [hmfst]; exact fun x hx => hmok.1 x hx
  · intro tried2
    by_cases hR : (get_related_words_from_wikipedia Mn lower pages st.language
        st.tried_words w 30).length = 0
    · have hmem : w ∈ (withTried (get_cached_wikipedia_related_words Mn lower pages
          st w 30).2.1 tried2).wikipedia_exhausted := by
        show w ∈ (get_cached_wikipedia_related_words Mn lower pages st w 30).2.1.wikipedia_exhausted
        rw [hwexh, if_pos hR]
        simp
      rw [cached_wiki_exhausted Mn lower pages _ w 30 hmem, hwfst,
        List.length_eq_zero.mp hR]
    · have hnm : w ∉ (withTried (get_cached_wikipedia_related_words Mn lower pages
          st w 30).2.1 tried2).wikipedia_exhausted := by
        show w ∉ (get_cached_wikipedia_related_words Mn lower pages st w 30).2.1.wikipedia_exhausted
        rw [hwexh, if_neg hR]
        exact hw1
      have hsome : lookupAssoc (withTried (get_cached_wikipedia_related_words Mn lower
          pages st w 30).2.1 tried2).wikipedia_cache w =
          some (get_related_words_from_wikipedia Mn lower pages st.language
            st.tried_words w 30) := by
        show lookupAssoc (get_cached_wikipedia_related_words Mn lower pages
          st w 30).2.1.wikipedia_cache w = _
        rw [hwcache]
        exact lookupAssoc_append_self st.wikipedia_cache w _ hw2
      rw [cached_wiki_hit Mn lower pages _ w 30 _ hnm hsome, hwfst]
  · intro tried2
    by_cases hR : (get_related_words_from_milog Mn divs st.tried_words w 30).length = 0
    · have hmem : w ∈ (withTried (get_cached_milog_related_words Mn divs
          st w 30).2.1 tried2).milog_exhausted := by
        show w ∈ (get_cached_milog_related_words Mn divs st w 30).2.1.milog_exhausted
        rw [hmexh, if_pos hR]
        simp
      rw [cached_milog_exhausted Mn divs _ w 30 hmem, hmfst,
        List.length_eq_zero.mp hR]
    · have hnm : w ∉ (withTried (get_cached_milog_related_words Mn divs
          st w 30).2.1 tried2).milog_exhausted := by
        show w ∉ (get_cached_milog_related_words Mn divs st w 30).2.1.milog_exhausted
        rw [hmexh, if_neg hR]
        exact hm1
      have hsome : lookupAssoc (withTried (get_cached_milog_related_words Mn divs
          st w 30).2.1 tried2).milog_cache w =
          some (get_related_words_from_milog Mn divs st.tried_words w 30) := by
        show lookupAssoc (get_cached_milog_related_words Mn divs
          st w 30).2.1.milog_cache w = _
        rw [hmcache]
        exact lookupAssoc_append_self st.milog_cache w _ hm2
      rw [cached_milog_hit Mn divs _ w 30 _ hnm hsome, hmfst]

/-- Witness for C5's amended statement at the fresh initial state with a
Wikipedia page linking `wordGD` from `wordAB`. -/
theorem C5_expand_contract_witness :
    (get_cached_wikipedia_related_words Mn0 lower0
        (fun w => if w = wordAB then ([wordGD], []) else ([], []))
        stEmpty wordAB 30).1.Nodup
    ∧ (get_cached_wikipedia_related_words Mn0 lower0
        (fun w => if w = wordAB then ([wordGD], []) else ([], []))
        stEmpty wordAB 30).1.length ≤ 30 :=
  ⟨(C5_expand_contract Mn0 lower0
      (fun w => if w = wordAB then ([wordGD], []) else ([], [])) divs0 stEmpty wordAB
      (by decide) (by decide) (by decide) (by decide)).1.1,
   (C5_expand_contract Mn0 lower0
      (fun w => if w = wordAB then ([wordGD], []) else ([], [])) divs0 stEmpty wordAB
      (by decide) (by decide) (by decide) (by decide)).1.2.1⟩

/-! ### C8: unknown words and the sentinel score -/

/-- Counterexample to C8 as stated: the sentinel is the fixed pair
`similarity = -1, distance = -1`, but a scored response carrying
similarity `-1` and distance `-1` is representable (the code records the
oracle's float verbatim and constrains nothing), and then the genuinely
scored ledger entry is indistinguishable from the sentinel entry. -/
theorem C8_sentinel_collision_cex :
    ((submit_guess stEmpty wtAB [ApiResponse.badRequest true] 5).1.map
        (fun r => (r.similarity, r.distance))) = some (-1, -1)
    ∧ ((submit_guess (submit_guess stEmpty wtAB [ApiResponse.badRequest true] 5).2.1
          { word := wordGD, origin := [], origin_source := "random" }
          [ApiResponse.score (-1) (-1)] 5).1.map
        (fun r => (r.similarity, r.distance))) = some (-1, -1) := by
  refine ⟨by decide, by decide⟩

/-- C8 amended: on an `UnknownWord` response the word is added to the
tried set, a ledger entry is appended carrying the fixed sentinel pair
`similarity = -1, distance = -1`, and the word is never submitted to the
oracle again (any further submission returns `None` with zero requests
and no state change).  The sentinel is distinguishable from every real
score whose similarity is not exactly `-1` — the code does not otherwise
flag sentinel entries, so a (hypothetical) oracle similarity of `-1`
would collide with it. -/
theorem C8_unknown_word_sentinel (st : SolverState) (wt : WordToTry)
    (rest : List ApiResponse) (s : ℚ) (h : wt.word ∉ st.tried_words) :
    submit_guess st wt (ApiResponse.badRequest true :: rest) s =
      (some { word := wt.word, similarity := -1, distance := -1,
              origin := wt.origin, origin_source := wt.origin_source,
              guess_number := (setAdd st.tried_words wt.word).length },
       { st with tried_words := setAdd st.tried_words wt.word,
                 guess_history := st.guess_history ++
                    [{ word := wt.word, similarity := -1, distance := -1,
                       origin := wt.origin, origin_source := wt.origin_source,
                       guess_number := (setAdd st.tried_words wt.word).length }] }, 0, 1)
    ∧ wt.word ∈ (submit_guess st wt (ApiResponse.badRequest true :: rest) s).2.1.tried_words
    ∧ (∀ (wt2 : WordToTry) (rs2 : List ApiResponse) (s2 : ℚ), wt2.word = wt.word →
        submit_guess (submit_guess st wt (ApiResponse.badRequest true :: rest) s).2.1
            wt2 rs2 s2 =
          (none, (submit_guess st wt (ApiResponse.badRequest true :: rest) s).2.1, 0, 0))
    ∧ (∀ (st2 : SolverState) (wt2 : WordToTry) (rest2 : List ApiResponse)
          (q : ℚ) (d : ℤ), wt2.word ∉ st2.tried_words → ¬ q = -1 →
        ((submit_guess st2 wt2 (ApiResponse.score q d :: rest2) s).1.map
            (fun r => r.similarity)) = some q
        ∧ ¬ ((submit_guess st2 wt2 (ApiResponse.score q d :: rest2) s).1.map
            (fun r => r.similarity)) = some (-1 : ℚ)) := by
  have hstep : submit_guess st wt (ApiResponse.badRequest true :: rest) s =
      (some { word := wt.word, similarity := -1, distance := -1,
              origin := wt.origin, origin_source := wt.origin_source,
              guess_number := (setAdd st.tried_words wt.word).length },
       { st with tried_words := setAdd st.tried_words wt.word,
                 guess_history := st.guess_history ++
                    [{ word := wt.word, similarity := -1, distance := -1,
                       origin := wt.origin, origin_source := wt.origin_source,
                       guess_number := (setAdd st.tried_words wt.word).length }] }, 0, 1) := by
    simp [submit_guess, h]
  have hmem : wt.word ∈ (submit_guess st wt
      (ApiResponse.badRequest true :: rest) s).2.1.tried_words := by
    rw [hstep]
    simp [setAdd]
    by_cases hin : wt.word ∈ st.tried_words <;> simp [hin]
  refine ⟨hstep, hmem, ?_, ?_⟩
  · intro wt2 rs2 s2 heq
    exact submit_guess_of_mem_tried _ wt2 rs2 s2 (by rw [heq]; exact hmem)
  · intro st2 wt2 rest2 q d h2 hq
    have hs : (submit_guess st2 wt2 (ApiResponse.score q d :: rest2) s).1 =
        some { word := wt2.word, similarity := q, distance := d,
               origin := wt2.origin, origin_source := wt2.origin_source,
               guess_number := (setAdd st2.tried_words wt2.word).length } := by
      simp [submit_guess, h2]
    rw [hs]
    simpa using hq

/-- Witness for C8's amended statement at a concrete fresh state. -/
theorem C8_unknown_word_sentinel_witness :
    wordAB ∈ (submit_guess stEmpty wtAB [ApiResponse.badRequest true] 5).2.1.tried_words
    ∧ ((submit_guess stEmpty
        { word := wordGD, origin := [], origin_source := "random" }
        [ApiResponse.score 10 5] 5).1.map (fun r => r.similarity)) = some 10 :=
  ⟨(C8_unknown_word_sentinel stEmpty wtAB [] 5 (by decide)).2.1,
   ((C8_unknown_word_sentinel stEmpty wtAB [] 5 (by decide)).2.2.2 stEmpty
      { word := wordGD, origin := [], origin_source := "random" } [] 10 5
      (by decide) (by norm_num)).1⟩

end SemantleSpec
